import Mathlib

/-!
# Grocery Item Resolution & Shopping Lifecycle Engine — verification development

A shallow embedding of the core pipeline of the grocery-app-web repository:
the lexical normalizer (`ProductService.parseLineForProduct`), the catalog
resolver (`Product.getPluralVariants` / `Product.lookup`), the external parser
adapter (`AIService.parseGroceryItems`), the catalog learner
(`ProductService.learnFromAI`), the batch reconciler
(`GroceryService.parseAndAddItems`), the archive operation
(`GroceryService.completeShoppingSession`) and the history restore route
(`POST /history/:id/restore`).

Conventions of the embedding:
* The relational store is a `Db` record of lists, one per table, in row
  insertion order.  SQL queries without `ORDER BY` return rows in insertion
  order; `rows[0]` is the head of the filtered list.
* JS numbers that hold item quantities are modelled as `Int` (the code only
  produces integers for them); ids are `Nat`, drawn from a `nextId` counter
  standing for the SERIAL sequences.
* Case-insensitive SQL comparisons (`LOWER(x) = LOWER(y)`) and JS
  `toLowerCase` are modelled with `jsToLower` (ASCII lowering), adequate for the
  ASCII/Latin-1 data the claims quantify over.
* Timestamps (`created_at`, `updated_at`, `completed_at`) are dropped: no
  verified property mentions them.
* The single shared list: the reference deployment shares one list across
  users (the spec says to treat the owner as a single logical list), so the
  `user_id` column is dropped.
-/

namespace Grocery

/-- JS regex `\d`: an ASCII decimal digit. -/
def isDigitChar (c : Char) : Bool := '0' ≤ c && c ≤ '9'

/-- JS regex `\s` / JS `String.prototype.trim` whitespace, restricted to the
ASCII whitespace characters (space, tab, line feed, carriage return,
vertical tab, form feed). -/
def isWsChar (c : Char) : Bool :=
  c = ' ' || c = '\t' || c = '\n' || c = '\r' || c = '\x0b' || c = '\x0c'

/-- JS `trim` on a character list: drop whitespace at both ends. -/
def jsTrimList (cs : List Char) : List Char :=
  ((cs.dropWhile isWsChar).reverse.dropWhile isWsChar).reverse

/-- JS `String.prototype.trim`. -/
def jsTrim (s : String) : String := ⟨jsTrimList s.data⟩

/-- JS `toLowerCase` / SQL `LOWER`, on the ASCII range the claims exercise
(non-ASCII characters pass through unchanged). -/
def jsToLower (s : String) : String := ⟨s.data.map Char.toLower⟩

/-- JS `String.prototype.endsWith`. -/
def jsEndsWith (s post : String) : Bool := post.data.isSuffixOf s.data

/-- JS `s.slice(0, -n)` for `n` ≥ 1 (drop the last `n` characters). -/
def jsDropRight (s : String) (n : Nat) : String :=
  ⟨s.data.take (s.data.length - n)⟩

/-- Numeric value of a run of ASCII digits (JS `parseInt` on an all-digit
capture group; never `NaN` there). -/
def natOfDigits (cs : List Char) : Nat :=
  cs.foldl (fun n c => 10 * n + (c.toNat - 48)) 0

/-! ## Lexical Normalizer — `ProductService.parseLineForProduct`
(src/unnamed/part_013, lines 6-31) -/

/-- The regex `^(\d+)\s+(.+)$` applied to the already-trimmed line `t`.
`\d+` greedily captures the maximal leading digit run, `\s+` the maximal
whitespace run after it, and `(.+)` the remainder, which must be non-empty
and free of line terminators (`.` matches neither `\n` nor `\r`; after
splitting the input on `\n` only `\r` can still occur).  Returns the
quantity capture and the remainder capture. -/
def matchQtyFirst (t : List Char) : Option (Nat × List Char) :=
  let d := t.takeWhile isDigitChar
  let rest := t.dropWhile isDigitChar
  let w := rest.takeWhile isWsChar
  let r := rest.dropWhile isWsChar
  if d.isEmpty then none
  else if w.isEmpty then none
  else if r.isEmpty then none
  else if r.contains '\r' then none
  else some (natOfDigits d, r)

/-- The regex `^(.+)\s+(\d+)$` applied to the already-trimmed line `t`:
`(\d+)` ends up capturing the maximal trailing digit run, `\s+` at least one
whitespace character before it, and `(.+)` everything before the whitespace
run.  The prefix capture is returned already stripped of the whitespace run
(the caller trims it, which yields the same string).  It must be free of
line terminators. -/
def matchQtyLast (t : List Char) : Option (List Char × Nat) :=
  let rev := t.reverse
  let d := rev.takeWhile isDigitChar
  let rest := rev.dropWhile isDigitChar
  let w := rest.takeWhile isWsChar
  let r := rest.dropWhile isWsChar
  if d.isEmpty then none
  else if w.isEmpty then none
  else if r.isEmpty then none
  else if r.reverse.contains '\r' then none
  else some (r.reverse, natOfDigits d.reverse)

/-- `ProductService.parseLineForProduct`: trim the line; try the
leading-quantity regex, then the trailing-quantity regex, else default the
quantity to 1 with the whole trimmed line as the term.  The captured term is
trimmed as in the source (a no-op on the captures produced above). -/
def parseLineForProduct (line : String) : Nat × String :=
  let t := jsTrimList line.data
  match matchQtyFirst t with
  | some (q, r) => (q, ⟨jsTrimList r⟩)
  | none =>
    match matchQtyLast t with
    | some (r, q) => (q, ⟨jsTrimList r⟩)
    | none => (1, ⟨t⟩)

/-! ## Data model -/

/-- `grocery_items.status`. -/
inductive EStatus
  | pending
  | selected
  | found
  | not_found
deriving DecidableEq, Repr

structure Category where
  id : Nat
  name : String
  icon : String
  sortOrder : Nat
deriving DecidableEq, Repr

/-- A `products` row together with its `product_aliases` rows (insertion
order). -/
structure Product where
  id : Nat
  name : String
  categoryId : Option Nat
  aliases : List String
deriving DecidableEq, Repr

/-- A `grocery_items` row. -/
structure ListEntry where
  id : Nat
  productId : Nat
  quantity : Int
  status : EStatus
  batchId : Option String
  note : Option String
deriving DecidableEq, Repr

/-- A `grocery_history` row.  `productId` is `none` once the product has
been deleted (`ON DELETE SET NULL`); name and category are copied at archive
time. -/
structure HistoryRecord where
  id : Nat
  productId : Option Nat
  productName : String
  categoryName : Option String
  quantity : Int
  status : EStatus
  sessionId : String
deriving DecidableEq, Repr

/-- The relational store. -/
structure Db where
  categories : List Category
  products : List Product
  items : List ListEntry
  history : List HistoryRecord
  nextId : Nat
deriving DecidableEq, Repr

/-! ## Catalog queries -/

/-- `Category.findByName`: `WHERE LOWER(name) = LOWER($1)`, first row. -/
def Category.findByName (cs : List Category) (name : String) : Option Category :=
  cs.find? (fun c => jsToLower c.name = jsToLower name)

/-- `Product.findByName`: `WHERE LOWER(p.name) = LOWER($1)`, first row. -/
def Product.findByName (ps : List Product) (name : String) : Option Product :=
  ps.find? (fun p => jsToLower p.name = jsToLower name)

/-- `Product.findByAlias`: join `product_aliases`,
`WHERE LOWER(pa.alias) = LOWER($1)`, first row. -/
def Product.findByAlias (ps : List Product) (al : String) : Option Product :=
  ps.find? (fun p => p.aliases.any (fun a => jsToLower a = jsToLower al))

/-- Order-preserving de-duplication, keeping first occurrences —
JS `[...new Set(variants)]`. -/
def dedupGo : List String → List String → List String
  | [], _ => []
  | x :: xs, seen => if x ∈ seen then dedupGo xs seen else x :: dedupGo xs (x :: seen)

def dedupKeepFirst (l : List String) : List String := dedupGo l []

/-- `Product.getPluralVariants` (src/backend/src/models/MenuPlan.js,
lines 203-219): the term itself; if it ends in `s` and has length > 2, the
term minus the trailing `s`, and additionally minus the trailing `es` when it
ends in `es` with length > 3; otherwise the term plus `s`; de-duplicated.
JS `.length` counts UTF-16 units; `String.length` counts characters, which
agree on the Latin-1 terms at issue. -/
def Product.getPluralVariants (term : String) : List String :=
  dedupKeepFirst
    (if jsEndsWith term "s" && decide (term.length > 2) then
      if jsEndsWith term "es" && decide (term.length > 3) then
        [term, jsDropRight term 1, jsDropRight term 2]
      else
        [term, jsDropRight term 1]
    else
      [term, term ++ "s"])

/-- The variant loop body of `Product.lookup`: for each variant in order try
the exact name match, then the alias match, returning on the first hit. -/
def tryVariants (ps : List Product) : List String → Option Product
  | [] => none
  | v :: vs =>
    match Product.findByName ps v with
    | some p => some p
    | none =>
      match Product.findByAlias ps v with
      | some p => some p
      | none => tryVariants ps vs

/-- `Product.lookup` (MenuPlan.js part, lines 222-238): lowercase and trim
the term, generate the plural variants, try each in order. -/
def Product.lookup (ps : List Product) (term : String) : Option Product :=
  tryVariants ps (Product.getPluralVariants (jsTrim (jsToLower term)))

/-! ## External Parser Adapter — `AIService.parseGroceryItems`
(src/backend/src/services/aiService.js, lines 195-328) -/

/-- A JSON scalar as it can appear in the `quantity` field of an adapter
response item.  Numbers are restricted to integers (the prompt asks for
integer quantities; a fractional number would behave like its truncation). -/
inductive JVal
  | num (n : Int)
  | str (s : String)
  | jbool (b : Bool)
  | jnull
deriving DecidableEq, Repr

/-- One raw item of a parsed adapter response.  A `none` field models a JSON
field that is absent or `null` (both falsy in the `!item.article` check). -/
structure RawAiItem where
  article : Option String
  quantity : Option JVal
  category : Option String
deriving DecidableEq, Repr

/-- The adapter response after `JSON.parse` of the fence-stripped text:
either the parse threw, or it produced a non-array value, or an array of
items. -/
inductive AiResponse
  | unparsable
  | nonArray
  | arr (items : List RawAiItem)
deriving DecidableEq, Repr

/-- The `errorType` classifications recorded by `trackRequest` that the
modelled paths can produce. -/
inductive AiErrorType
  | notInitializedErr
  | jsonParseError
  | invalidResponseStructure
  | unknownErr
deriving DecidableEq, Repr

/-- JS `parseInt` on a string: skip leading whitespace, optional sign,
maximal digit run; `none` models `NaN`. -/
def parseIntStr (s : String) : Option Int :=
  let cs := s.data.dropWhile isWsChar
  match cs with
  | '-' :: rest =>
    let d := rest.takeWhile isDigitChar
    if d.isEmpty then none else some (-(natOfDigits d : Int))
  | '+' :: rest =>
    let d := rest.takeWhile isDigitChar
    if d.isEmpty then none else some ((natOfDigits d : Int))
  | _ =>
    let d := cs.takeWhile isDigitChar
    if d.isEmpty then none else some ((natOfDigits d : Int))

/-- JS `parseInt(item.quantity)` over the modelled value shapes: an integer
number parses to itself, a string through `parseIntStr`; `undefined`,
`null` and booleans give `NaN` (`none`). -/
def jsParseInt : Option JVal → Option Int
  | none => none
  | some (.num n) => some n
  | some (.str s) => parseIntStr s
  | some (.jbool _) => none
  | some .jnull => none

/-- `parseInt(item.quantity) || 1`: `NaN` and `0` are falsy and default to
1; any other parsed value passes through (negative values included). -/
def coerceQty (q : Option JVal) : Int :=
  match jsParseInt q with
  | none => 1
  | some n => if n = 0 then 1 else n

/-- A validated adapter item as returned by `parseGroceryItems`. -/
structure AiItem where
  article : String
  quantity : Int
  category : String
deriving DecidableEq, Repr

/-- The `parsedItems.map` validation loop (aiService.js, lines 270-281):
throw on the first item missing a truthy `article` or `category`, otherwise
trim both strings and coerce the quantity. -/
def validateAiItems : List RawAiItem → Except AiErrorType (List AiItem)
  | [] => .ok []
  | it :: rest =>
    match it.article, it.category with
    | some a, some c =>
      if a = "" || c = "" then .error .unknownErr
      else
        match validateAiItems rest with
        | .error e => .error e
        | .ok tl =>
          .ok ({ article := jsTrim a, quantity := coerceQty it.quantity,
                 category := jsTrim c } :: tl)
    | _, _ => .error .unknownErr

/-- One `trackRequest` log event: the success flag and error classification
recorded (aiService.js, lines 32-74). -/
structure LogEvent where
  success : Bool
  errorType : Option AiErrorType
deriving DecidableEq, Repr

/-- What one `parseGroceryItems` call did besides its return value: whether
the external capability was called, and which log events `trackRequest`
recorded, in order. -/
structure AiCallTrace where
  externalCalled : Bool
  logged : List LogEvent
deriving DecidableEq, Repr

/-- `AIService.parseGroceryItems`.  `initialized` models `this.model` being
set; `resp` stands for the classified shape of the external response text.
Uninitialized: log a failure with the distinct `NOT_INITIALIZED`
classification without calling out, then throw (modelled as `.error`).
Unparsable JSON: log `JSON_PARSE_ERROR` and throw (the rethrown message
matches the `JSON`/`parse` patterns of the catch block, so it is not logged
again).  Non-array: log `INVALID_RESPONSE_STRUCTURE`, rethrow; the message
matches no pattern, so the catch block logs a second `UNKNOWN` event.
Missing fields: the throw is only classified in the catch block, as
`UNKNOWN`.  Success: one success log event. -/
def parseGroceryItems (initialized : Bool) (resp : AiResponse) :
    AiCallTrace × Except AiErrorType (List AiItem) :=
  if initialized = false then
    ({ externalCalled := false,
       logged := [{ success := false, errorType := some .notInitializedErr }] },
     .error .notInitializedErr)
  else
    match resp with
    | .unparsable =>
      ({ externalCalled := true,
         logged := [{ success := false, errorType := some .jsonParseError }] },
       .error .jsonParseError)
    | .nonArray =>
      ({ externalCalled := true,
         logged := [{ success := false, errorType := some .invalidResponseStructure },
                    { success := false, errorType := some .unknownErr }] },
       .error .invalidResponseStructure)
    | .arr items =>
      match validateAiItems items with
      | .error e =>
        ({ externalCalled := true,
           logged := [{ success := false, errorType := some .unknownErr }] },
         .error e)
      | .ok validated =>
        ({ externalCalled := true,
           logged := [{ success := true, errorType := none }] },
       .ok validated)

/-! ## Catalog Learner — `ProductService` (src/unnamed/part_013) and
`Product.addAlias` (MenuPlan.js part, lines 292-305) -/

/-- `Product.addAlias`: lowercase and trim the alias; refuse silently when it
equals the product's own lowercased name; `INSERT ... ON CONFLICT (alias) DO
NOTHING` under the global uniqueness constraint, so an alias already present
on any product leaves the store unchanged. -/
def addAliasDb (db : Db) (pid : Nat) (pname : String) (al : String) : Db :=
  let normalized := jsTrim (jsToLower al)
  if normalized = jsToLower pname then db
  else if db.products.any (fun q => q.aliases.contains normalized) then db
  else
    { db with
      products := db.products.map (fun q =>
        if q.id = pid then { q with aliases := q.aliases ++ [normalized] } else q) }

/-- `ProductService.getOrCreateCategory` (part_013, lines 83-89): find by
case-insensitive name, else create with the default icon and sort position
50. -/
def getOrCreateCategory (db : Db) (categoryName : String) : Db × Category :=
  match Category.findByName db.categories categoryName with
  | some c => (db, c)
  | none =>
    let c : Category :=
      { id := db.nextId, name := categoryName, icon := "📦", sortOrder := 50 }
    ({ db with categories := db.categories ++ [c], nextId := db.nextId + 1 }, c)

/-- `Product.create`. -/
def createProductDb (db : Db) (name : String) (categoryId : Option Nat) :
    Db × Product :=
  let p : Product := { id := db.nextId, name := name, categoryId := categoryId,
                       aliases := [] }
  ({ db with products := db.products ++ [p], nextId := db.nextId + 1 }, p)

/-- `ProductService.learnFromAI` (part_013, lines 92-118): resolve or create
the category; resolve the product by case-insensitive exact name, reassigning
its category when the learner's differs, else create it; attach the original
unresolved term as an alias when it differs case-insensitively from the
corrected article. -/
def learnFromAI (db : Db) (correctName categoryName originalInput : String) :
    Db × Product :=
  let s1 := getOrCreateCategory db categoryName
  let db1 := s1.1
  let cat := s1.2
  let s2 :=
    match Product.findByName db1.products correctName with
    | some p =>
      if p.categoryId ≠ some cat.id then
        let p2 := { p with categoryId := some cat.id }
        ({ db1 with
           products := db1.products.map (fun (q : Product) => if q.id = p.id then p2 else q) },
         p2)
      else (db1, p)
    | none => createProductDb db1 correctName (some cat.id)
  let db2 := s2.1
  let prod := s2.2
  let db3 :=
    if originalInput ≠ "" && jsToLower originalInput ≠ jsToLower correctName then
      addAliasDb db2 prod.id prod.name originalInput
    else db2
  (db3, prod)

/-! ## Batch Reconciler — `GroceryService.parseAndAddItems`
(src/unnamed/part_012, lines 11-100) -/

/-- An item of the `found` partition of `ProductService.parseLines`. -/
structure FoundItem where
  product : Product
  quantity : Int
  originalInput : String
deriving DecidableEq, Repr

/-- An item of the `notFound` partition of `ProductService.parseLines`. -/
structure NotFoundItem where
  term : String
  quantity : Int
  originalInput : String
deriving DecidableEq, Repr

/-- `ProductService.parseLines` (part_013, lines 39-68): per non-blank line,
extract the quantity and term, look the term up, and partition into found
and not-found items. -/
def parseLines (ps : List Product) : List String → List FoundItem × List NotFoundItem
  | [] => ([], [])
  | line :: rest =>
    if jsTrim line = "" then parseLines ps rest
    else
      let qt := parseLineForProduct line
      let tail := parseLines ps rest
      match Product.lookup ps qt.2 with
      | some p =>
        ({ product := p, quantity := (qt.1 : Int), originalInput := jsTrim line } :: tail.1,
         tail.2)
      | none =>
        (tail.1,
         { term := qt.2, quantity := (qt.1 : Int), originalInput := jsTrim line } :: tail.2)

/-- `GroceryItem.findByProduct` (src/backend/src/models/GroceryItem.js,
lines 89-95): the base query joins `products` (an entry whose product row is
gone would be invisible, though `ON DELETE CASCADE` rules that out) and
filters `status != 'found'`; `rows[0]` of the unordered result. -/
def GroceryItem.findByProduct (db : Db) (pid : Nat) : Option ListEntry :=
  (db.items.filter (fun e =>
    e.productId = pid && e.status ≠ EStatus.found &&
      db.products.any (fun p => p.id = e.productId))).head?

/-- `GroceryItem.save` on an existing row: `UPDATE ... WHERE id = $6`. -/
def saveUpdatedEntry (db : Db) (e : ListEntry) : Db :=
  { db with items := db.items.map (fun x => if x.id = e.id then e else x) }

/-- An element of `allItems` in `parseAndAddItems` (a found or learned item
about to be reconciled). -/
structure PipeItem where
  product : Product
  quantity : Int
  originalInput : String
deriving DecidableEq, Repr

/-- The failure modes of `parseAndAddItems`: a propagated adapter failure, or
the `TypeError` hit when the adapter returned more items than there were
unresolved lines (`notFound[i]` is `undefined` and `original.term` throws). -/
inductive PErr
  | aiFailure (e : AiErrorType)
  | typeError
deriving DecidableEq, Repr

/-- The AI-results loop of `parseAndAddItems` (part_012, lines 26-44): walk
`aiParsed` by index `i` with `original = notFound[i]`; items with falsy
`article` or `category` are skipped; otherwise learn from the AI item
(mutating the catalog) and emit a pipeline item whose quantity is
`original.quantity || parsed.quantity || 1`.  Catalog writes performed
before a `TypeError` persist: there is no surrounding transaction. -/
def processAiResults (db : Db) :
    List AiItem → List NotFoundItem → Db × Except PErr (List PipeItem)
  | [], _ => (db, .ok [])
  | parsed :: ps, nfs =>
    if parsed.article ≠ "" && parsed.category ≠ "" then
      match nfs with
      | [] => (db, .error .typeError)
      | original :: rest =>
        let s := learnFromAI db parsed.article parsed.category original.term
        let qty : Int :=
          if original.quantity ≠ 0 then original.quantity
          else if parsed.quantity ≠ 0 then parsed.quantity
          else 1
        match processAiResults s.1 ps rest with
        | (db2, .ok tl) =>
          (db2, .ok ({ product := s.2, quantity := qty,
                       originalInput := original.originalInput } :: tl))
        | (db2, .error e) => (db2, .error e)
    else
      processAiResults db ps nfs.tail

/-- The merge-or-insert step of the reconciler (part_012, lines 57-82): an
existing open (non-`found`) entry for the product gets the quantity added
and the batch id re-stamped; otherwise a new `pending` entry is created. -/
def mergeOrInsertItem (batchId : String) (db : Db) (it : PipeItem) : Db :=
  match GroceryItem.findByProduct db it.product.id with
  | some existing =>
    saveUpdatedEntry db
      { existing with quantity := existing.quantity + it.quantity,
                      batchId := some batchId }
  | none =>
    let e : ListEntry :=
      { id := db.nextId, productId := it.product.id, quantity := it.quantity,
        status := .pending, batchId := some batchId, note := none }
    { db with items := db.items ++ [e], nextId := db.nextId + 1 }

def addAllItems (batchId : String) (db : Db) (items : List PipeItem) : Db :=
  items.foldl (mergeOrInsertItem batchId) db

/-- JS `split('\n')` on a character list: the segments between newlines
(an empty input gives one empty segment, as in JS). -/
def splitNlGo (cs : List Char) (cur : List Char) : List (List Char) :=
  match cs with
  | [] => [cur.reverse]
  | c :: rest =>
    if c = '\n' then cur.reverse :: splitNlGo rest []
    else splitNlGo rest (c :: cur)

/-- `groceryText.split('\n').filter(line => line.trim().length > 0)`. -/
def splitLines (text : String) : List String :=
  ((splitNlGo text.data []).map (fun l => (⟨l⟩ : String))).filter
    (fun l => jsTrim l ≠ "")

structure AddStats where
  total : Nat
  fromCache : Nat
  fromAI : Nat
deriving DecidableEq, Repr

structure AddResult where
  batchId : String
  stats : AddStats
deriving DecidableEq, Repr

/-- `GroceryService.parseAndAddItems` (part_012, lines 11-100).  `aiInit`
and `resp` stand for the adapter's initialization state and external
response (the external call is made only when the local lookup left
unresolved lines); `batchId` stands for the generated random batch id.  The
returned `Db` is the persisted state whether or not the call threw. -/
def parseAndAddItems (db : Db) (aiInit : Bool) (resp : AiResponse)
    (batchId : String) (groceryText : String) : Db × Except PErr AddResult :=
  let lines := splitLines groceryText
  let parts := parseLines db.products lines
  let found := parts.1
  let notFound := parts.2
  let step2 : Db × Except PErr (List PipeItem) :=
    if notFound.length > 0 then
      match (parseGroceryItems aiInit resp).2 with
      | .error e => (db, .error (.aiFailure e))
      | .ok aiParsed => processAiResults db aiParsed notFound
    else (db, .ok [])
  match step2 with
  | (db2, .error e) => (db2, .error e)
  | (db2, .ok aiItems) =>
    let allItems :=
      found.map (fun f =>
        ({ product := f.product, quantity := f.quantity,
           originalInput := f.originalInput } : PipeItem)) ++ aiItems
    let db3 := addAllItems batchId db2 allItems
    (db3, .ok { batchId := batchId,
                stats := { total := allItems.length, fromCache := found.length,
                           fromAI := aiItems.length } })

/-! ## Lifecycle State Machine — `GroceryService.completeShoppingSession`
(part_012, lines 152-205) -/

/-- The joined product row of an entry (`JOIN products`). -/
def productOf (db : Db) (e : ListEntry) : Option Product :=
  db.products.find? (fun p => p.id = e.productId)

/-- The joined category row of an entry (`LEFT JOIN categories`). -/
def categoryOfEntry (db : Db) (e : ListEntry) : Option Category :=
  (productOf db e).bind (fun p =>
    p.categoryId.bind (fun cid => db.categories.find? (fun c => c.id = cid)))

/-- `p.name` of the joined row. -/
def joinedName (db : Db) (e : ListEntry) : String :=
  ((productOf db e).map Product.name).getD ""

/-- `c.name` of the joined row (`NULL` when the product has no category). -/
def joinedCatName (db : Db) (e : ListEntry) : Option String :=
  (categoryOfEntry db e).map Category.name

/-- The `ORDER BY c.sort_order ASC, p.name ASC` key: a missing category
sorts last (`NULLS LAST`). -/
def sortKey (db : Db) (e : ListEntry) : Nat × Nat × String :=
  match categoryOfEntry db e with
  | some c => (0, c.sortOrder, joinedName db e)
  | none => (1, 0, joinedName db e)

/-- Lexicographic character-code comparison, the model of the text collation
used by the `ORDER BY` (no verified property depends on its tie order). -/
def charListLe : List Char → List Char → Bool
  | [], _ => true
  | _ :: _, [] => false
  | a :: as, b :: bs =>
    if a.toNat < b.toNat then true
    else if b.toNat < a.toNat then false
    else charListLe as bs

def keyLe (a b : Nat × Nat × String) : Bool :=
  a.1 < b.1 ||
    (a.1 = b.1 && (a.2.1 < b.2.1 || (a.2.1 = b.2.1 && charListLe a.2.2.data b.2.2.data)))

def insertSorted (le : ListEntry → ListEntry → Bool) (a : ListEntry) :
    List ListEntry → List ListEntry
  | [] => [a]
  | b :: bs => if le a b then a :: b :: bs else b :: insertSorted le a bs

/-- A stable sort standing for the SQL `ORDER BY` (whose tie order is
unspecified; no verified property depends on the order). -/
def sortEntries (le : ListEntry → ListEntry → Bool) : List ListEntry → List ListEntry
  | [] => []
  | a :: as => insertSorted le a (sortEntries le as)

/-- `GroceryItem.findByStatus` (GroceryItem.js, lines 70-77): the base query
joins `products`, filters on the status, and orders by category sort then
product name. -/
def GroceryItem.findByStatus (db : Db) (st : EStatus) : List ListEntry :=
  sortEntries (fun a b => keyLe (sortKey db a) (sortKey db b))
    (db.items.filter (fun e =>
      e.status = st && db.products.any (fun p => p.id = e.productId)))

/-- The archive failure: a database write failing partway through the
transaction body. -/
inductive ArchiveErr
  | dbFailure
deriving DecidableEq, Repr

/-- One captured row of the archive loop: the entry plus the joined product
and category names read by the `findByStatus` SELECT. -/
structure ArchRow where
  entry : ListEntry
  productName : String
  categoryName : Option String
deriving DecidableEq, Repr

/-- The `for (const item of itemsToArchive)` loop (part_012, lines 164-186):
per item, insert a `grocery_history` row copying product name, category
name, quantity and status with the session id, then delete the
`grocery_items` row.  `failAt` injects a write failure before processing the
i-th row, modelling a database error partway through. -/
def archiveLoop (sid : String) (failAt : Option Nat) :
    Nat → Db → List ArchRow → Except ArchiveErr (Db × Nat)
  | _, db, [] => .ok (db, 0)
  | i, db, row :: rest =>
    if failAt = some i then .error .dbFailure
    else
      let hrec : HistoryRecord :=
        { id := db.nextId, productId := some row.entry.productId,
          productName := row.productName, categoryName := row.categoryName,
          quantity := row.entry.quantity, status := row.entry.status,
          sessionId := sid }
      let db2 : Db :=
        { db with history := db.history ++ [hrec],
                  items := db.items.filter (fun x => x.id ≠ row.entry.id),
                  nextId := db.nextId + 1 }
      match archiveLoop sid failAt (i + 1) db2 rest with
      | .ok (db3, n) => .ok (db3, n + 1)
      | .error e => .error e

structure SessionResult where
  sessionId : String
  archivedCount : Nat
  foundCount : Nat
  notFoundCount : Nat
deriving DecidableEq, Repr

/-- Modelled from the spec: `db.withTransaction`
(src/backend/src/config/database.js is absent from the source snapshot; only
its caller is present).  Per the spec, the archive operation "must use a
single transactional context so a failure partway rolls back every write
from that call": the body runs on the current state and, on error, every
write is discarded and the pre-call state is kept. -/
def withTransaction {α : Type} (db : Db)
    (body : Db → Except ArchiveErr (Db × α)) : Db × Except ArchiveErr α :=
  match body db with
  | .ok (db2, a) => (db2, .ok a)
  | .error e => (db, .error e)

/-- `GroceryService.completeShoppingSession` (part_012, lines 152-205):
inside one transaction, read the `found` and `not_found` entries, archive
each (insert history row, delete entry), and report the counts under the
freshly generated session id `sid`. -/
def completeShoppingSession (db : Db) (sid : String) (failAt : Option Nat) :
    Db × Except ArchiveErr SessionResult :=
  withTransaction db (fun d =>
    let foundItems := GroceryItem.findByStatus d .found
    let notFoundItems := GroceryItem.findByStatus d .not_found
    let rows := (foundItems ++ notFoundItems).map (fun e =>
      ({ entry := e, productName := joinedName d e,
         categoryName := joinedCatName d e } : ArchRow))
    match archiveLoop sid failAt 0 d rows with
    | .ok (d2, n) =>
      .ok (d2, { sessionId := sid, archivedCount := n,
                 foundCount := foundItems.length,
                 notFoundCount := notFoundItems.length })
    | .error e => .error e)

/-! ## Restore — `POST /history/:id/restore`
(src/unnamed/part_015, lines 170-227) -/

def GroceryHistory.findById (db : Db) (hid : Nat) : Option HistoryRecord :=
  db.history.find? (fun h => h.id = hid)

/-- The restore failure modes surfaced to the caller as HTTP errors. -/
inductive RestoreErr
  | historyNotFound
  | productGone
deriving DecidableEq, Repr

/-- The restore route handler: find the history record; take its product id
when truthy (a `SERIAL` id 0 never occurs, but JS truthiness is mirrored),
else resolve the stored product name; reject when both fail (the history
record is not touched); then merge into an existing open entry or create a
new `pending` entry with the archived quantity. -/
def restoreHistoryItem (db : Db) (hid : Nat) : Db × Except RestoreErr ListEntry :=
  match GroceryHistory.findById db hid with
  | none => (db, .error .historyNotFound)
  | some h =>
    let byName : Option Nat := (Product.findByName db.products h.productName).map Product.id
    let pidOpt : Option Nat :=
      match h.productId with
      | some pid => if pid = 0 then byName else some pid
      | none => byName
    match pidOpt with
    | none => (db, .error .productGone)
    | some pid =>
      match GroceryItem.findByProduct db pid with
      | some existing =>
        let e2 := { existing with quantity := existing.quantity + h.quantity }
        (saveUpdatedEntry db e2, .ok e2)
      | none =>
        let e : ListEntry :=
          { id := db.nextId, productId := pid, quantity := h.quantity,
            status := .pending, batchId := none, note := none }
        ({ db with items := db.items ++ [e], nextId := db.nextId + 1 }, .ok e)

/-! ## Spec-side definitions for the resolver refinement (claim C5) -/

/-- The Catalog Resolver's variant generation exactly as the spec words it,
for the refinement comparison with `Product.getPluralVariants`: the term
itself; if it ends in "s" and has length > 2, the term minus the trailing
"s" (and, if it ends in "es" and has length > 3, also minus the trailing
"es"); otherwise the term plus "s"; deduplicated. -/
def specVariants (term : String) : List String :=
  dedupKeepFirst
    ([term] ++
      (if jsEndsWith term "s" && decide (term.length > 2) then
        [jsDropRight term 1] ++
          (if jsEndsWith term "es" && decide (term.length > 3) then
            [jsDropRight term 2]
          else [])
      else [term ++ "s"]))

/-- First hit over the variants: per variant an exact case-insensitive name
match, then an alias match. -/
def firstHit (ps : List Product) (vs : List String) : Option Product :=
  vs.findSome? (fun v =>
    (Product.findByName ps v).orElse (fun _ => Product.findByAlias ps v))

/-- The Catalog Resolver as the spec words it (lowercase and trim, generate
variants in order, deduplicate, first name-then-alias hit), for the
refinement comparison with `Product.lookup`. -/
def specResolve (ps : List Product) (term : String) : Option Product :=
  firstHit ps (specVariants (jsTrim (jsToLower term)))

/-! ## Observables used by claim statements -/

/-- The open (non-`found`) list entries of one product — the set the merge
invariant speaks about. -/
def openEntriesFor (db : Db) (pid : Nat) : List ListEntry :=
  db.items.filter (fun e => e.productId = pid && e.status ≠ EStatus.found)

/-- The history rows the archive loop inserts for the given captured rows,
with ids drawn consecutively from `base`. -/
def archRecords (sid : String) (base : Nat) : List ArchRow → List HistoryRecord
  | [] => []
  | row :: rest =>
    { id := base, productId := some row.entry.productId,
      productName := row.productName, categoryName := row.categoryName,
      quantity := row.entry.quantity, status := row.entry.status,
      sessionId := sid } :: archRecords sid (base + 1) rest

/-! ## Concrete fixtures used by witnesses and counterexamples -/

/-- An empty store. -/
def emptyDb : Db :=
  { categories := [], products := [], items := [], history := [], nextId := 1 }

/-- An adapter response with one item, for calls with two unresolved lines. -/
def oneItemRespList : List RawAiItem :=
  [{ article := some "Ccc", quantity := some (.num 1), category := some "Autre" }]

def oneItemResp : AiResponse := .arr oneItemRespList

def tomatoProduct : Product :=
  { id := 1, name := "Tomates", categoryId := none, aliases := [] }

/-- A catalog holding only the product "Tomates", empty list. -/
def tomatoDb : Db :=
  { categories := [], products := [tomatoProduct], items := [], history := [],
    nextId := 7 }

/-- A catalog holding "Tomates" whose sole list entry is `found`. -/
def tomatoFoundDb : Db :=
  { categories := [], products := [tomatoProduct],
    items := [{ id := 100, productId := 1, quantity := 2, status := .found,
                batchId := none, note := none }],
    history := [], nextId := 7 }

def fixtureCat : Category := { id := 10, name := "Cat", icon := "x", sortOrder := 1 }

/-- A store with two `found` entries, one `not_found` entry and one `pending`
entry, for the archive scenarios. -/
def archDb : Db :=
  { categories := [fixtureCat],
    products := [{ id := 1, name := "A", categoryId := some 10, aliases := [] },
                 { id := 2, name := "B", categoryId := some 10, aliases := [] },
                 { id := 3, name := "C", categoryId := none, aliases := [] },
                 { id := 4, name := "D", categoryId := some 10, aliases := [] }],
    items := [{ id := 100, productId := 1, quantity := 2, status := .found,
                batchId := none, note := none },
              { id := 101, productId := 2, quantity := 1, status := .found,
                batchId := none, note := none },
              { id := 102, productId := 3, quantity := 4, status := .not_found,
                batchId := none, note := none },
              { id := 103, productId := 4, quantity := 1, status := .pending,
                batchId := none, note := none }],
    history := [], nextId := 200 }

/-- A store with one archived history record whose product still exists and
has no open entry, for the restore scenario. -/
def histDb : Db :=
  { categories := [fixtureCat],
    products := [{ id := 1, name := "A", categoryId := some 10, aliases := [] }],
    items := [],
    history := [{ id := 50, productId := some 1, productName := "A",
                  categoryName := some "Cat", quantity := 3, status := .found,
                  sessionId := "s" }],
    nextId := 300 }

/-! ## Helper lemmas -/

theorem coerceQty_ne_zero (q : Option JVal) : coerceQty q ≠ 0 := by
  unfold coerceQty
  cases h : jsParseInt q with
  | none => decide
  | some n =>
    by_cases hn : n = 0
    · simp [hn]
    · simp [hn]

theorem validateAiItems_quantity_ne_zero :
    ∀ (raws : List RawAiItem) (out : List AiItem),
      validateAiItems raws = .ok out → ∀ it ∈ out, it.quantity ≠ 0 := by
  intro raws
  induction raws with
  | nil =>
    intro out h it hit
    simp only [validateAiItems] at h
    cases h
    simp at hit
  | cons r rest ih =>
    obtain ⟨ra, rq, rc⟩ := r
    intro out h it hit
    cases ra with
    | none => cases rc <;> simp only [validateAiItems] at h <;> cases h
    | some a =>
      cases rc with
      | none => simp only [validateAiItems] at h; cases h
      | some c =>
        simp only [validateAiItems] at h
        by_cases hac : (decide (a = "") || decide (c = "")) = true
        · rw [if_pos hac] at h; cases h
        · rw [if_neg hac] at h
          cases hv : validateAiItems rest with
          | error e => rw [hv] at h; cases h
          | ok tl =>
            rw [hv] at h
            cases h
            rcases List.mem_cons.mp hit with hhead | htail
            · subst hhead; exact coerceQty_ne_zero rq
            · exact ih tl hv it htail

theorem getPluralVariants_eq_specVariants (t : String) :
    Product.getPluralVariants t = specVariants t := by
  unfold Product.getPluralVariants specVariants
  by_cases h1 : (jsEndsWith t "s" && decide (t.length > 2)) = true
  · by_cases h2 : (jsEndsWith t "es" && decide (t.length > 3)) = true
    · simp [h1, h2]
    · simp only [Bool.not_eq_true] at h2
      simp [h1, h2]
  · simp only [Bool.not_eq_true] at h1
    simp [h1]

theorem tryVariants_eq_firstHit (ps : List Product) :
    ∀ vs : List String, tryVariants ps vs = firstHit ps vs := by
  intro vs
  induction vs with
  | nil => rfl
  | cons v rest ih =>
    simp only [tryVariants, firstHit, List.findSome?_cons]
    cases hn : Product.findByName ps v with
    | some p => simp [Option.orElse, hn]
    | none =>
      cases ha : Product.findByAlias ps v with
      | some p => simp [Option.orElse, hn, ha]
      | none =>
        simp only [Option.orElse, hn, ha]
        exact ih

theorem ws_not_digit {c : Char} (h : isWsChar c = true) : isDigitChar c = false := by
  simp only [isWsChar, Bool.or_eq_true, decide_eq_true_eq] at h
  rcases h with ((((h | h) | h) | h) | h) | h <;> subst h <;> decide

theorem takeWhile_append_of_all {p : Char → Bool} :
    ∀ {d rest : List Char}, (∀ c ∈ d, p c = true) →
      (d ++ rest).takeWhile p = d ++ rest.takeWhile p := by
  intro d
  induction d with
  | nil => intro rest _; simp
  | cons a l ih =>
    intro rest h
    have ha : p a = true := h a (by simp)
    simp only [List.cons_append, List.takeWhile_cons, ha, if_true, List.cons.injEq, true_and]
    exact ih (fun c hc => h c (by simp [hc]))

theorem dropWhile_append_of_all {p : Char → Bool} :
    ∀ {d rest : List Char}, (∀ c ∈ d, p c = true) →
      (d ++ rest).dropWhile p = rest.dropWhile p := by
  intro d
  induction d with
  | nil => intro rest _; simp
  | cons a l ih =>
    intro rest h
    have ha : p a = true := h a (by simp)
    simp only [List.cons_append, List.dropWhile_cons, ha, if_true]
    exact ih (fun c hc => h c (by simp [hc]))

theorem takeWhile_eq_nil_of_head {p : Char → Bool} {c : Char} {l : List Char}
    (h : p c = false) : (c :: l).takeWhile p = [] := by
  simp [List.takeWhile_cons, h]

theorem dropWhile_eq_self_of_head {p : Char → Bool} {c : Char} {l : List Char}
    (h : p c = false) : (c :: l).dropWhile p = c :: l := by
  simp [List.dropWhile_cons, h]

/-- The leading-quantity regex on a string decomposed as digits, whitespace
and a remainder starting with a non-whitespace character. -/
theorem matchQtyFirst_decomp {d w r : List Char}
    (hd : d ≠ []) (hdall : ∀ c ∈ d, isDigitChar c = true)
    (hw : w ≠ []) (hwall : ∀ c ∈ w, isWsChar c = true)
    (hr : r ≠ []) (hrhead : ∀ c l, r = c :: l → isWsChar c = false)
    (hcr : r.contains '\r' = false) :
    matchQtyFirst (d ++ w ++ r) = some (natOfDigits d, r) := by
  obtain ⟨dc, dt, rfl⟩ := List.exists_cons_of_ne_nil hd
  obtain ⟨wc, wt, rfl⟩ := List.exists_cons_of_ne_nil hw
  obtain ⟨rc, rt, rfl⟩ := List.exists_cons_of_ne_nil hr
  have hwc : isWsChar wc = true := hwall wc (by simp)
  have hwcd : isDigitChar wc = false := ws_not_digit hwc
  have hrc : isWsChar rc = false := hrhead rc rt rfl
  have i1 : ((wc :: wt) ++ (rc :: rt)).takeWhile isDigitChar = [] := by
    rw [List.cons_append, takeWhile_eq_nil_of_head hwcd]
  have i2 : ((wc :: wt) ++ (rc :: rt)).dropWhile isDigitChar = wc :: (wt ++ rc :: rt) := by
    rw [List.cons_append, dropWhile_eq_self_of_head hwcd]
  have e1 : ((dc :: dt) ++ (wc :: wt) ++ (rc :: rt)).takeWhile isDigitChar = dc :: dt := by
    rw [List.append_assoc, takeWhile_append_of_all hdall, i1, List.append_nil]
  have e2 : ((dc :: dt) ++ (wc :: wt) ++ (rc :: rt)).dropWhile isDigitChar
      = wc :: (wt ++ rc :: rt) := by
    rw [List.append_assoc, dropWhile_append_of_all hdall, i2]
  have e3 : (wc :: (wt ++ rc :: rt)).takeWhile isWsChar = wc :: wt := by
    rw [← List.cons_append, takeWhile_append_of_all hwall,
        takeWhile_eq_nil_of_head hrc, List.append_nil]
  have e4 : (wc :: (wt ++ rc :: rt)).dropWhile isWsChar = rc :: rt := by
    rw [← List.cons_append, dropWhile_append_of_all hwall,
        dropWhile_eq_self_of_head hrc]
  simp only [matchQtyFirst, e1, e2, e3, e4, List.isEmpty_cons, hcr]
  simp

/-- The trailing-quantity regex on a string decomposed as a remainder ending
in a non-whitespace character, whitespace and digits. -/
theorem matchQtyLast_decomp {r w d : List Char} {rl : Char}
    (hd : d ≠ []) (hdall : ∀ c ∈ d, isDigitChar c = true)
    (hw : w ≠ []) (hwall : ∀ c ∈ w, isWsChar c = true)
    (hrl : r.getLast? = some rl) (hrlw : isWsChar rl = false)
    (hcr : r.contains '\r' = false) :
    matchQtyLast (r ++ w ++ d) = some (r, natOfDigits d) := by
  have hdall' : ∀ c ∈ d.reverse, isDigitChar c = true := by
    intro c hc; exact hdall c (List.mem_reverse.mp hc)
  have hwall' : ∀ c ∈ w.reverse, isWsChar c = true := by
    intro c hc; exact hwall c (List.mem_reverse.mp hc)
  have hwne : w.reverse ≠ [] := by simpa using hw
  obtain ⟨wc, wt, hwrev⟩ := List.exists_cons_of_ne_nil hwne
  have hwc : isWsChar wc = true := hwall' wc (by rw [hwrev]; simp)
  have hwcd : isDigitChar wc = false := ws_not_digit hwc
  have hrrev : r.reverse.head? = some rl := by rw [List.head?_reverse]; exact hrl
  have hrne : r.reverse ≠ [] := by
    intro hnil; rw [hnil] at hrrev; simp at hrrev
  obtain ⟨rc, rt, hrrev2⟩ := List.exists_cons_of_ne_nil hrne
  have hrc : rc = rl := by
    rw [hrrev2] at hrrev; simpa using hrrev
  subst hrc
  have hrcw : isWsChar rc = false := hrlw
  have hwall2 : ∀ c ∈ wc :: wt, isWsChar c = true := by rw [← hwrev]; exact hwall'
  have hdne : d.reverse ≠ [] := by simpa using hd
  obtain ⟨dc, dt, hdrev⟩ := List.exists_cons_of_ne_nil hdne
  have hdall2 : ∀ c ∈ dc :: dt, isDigitChar c = true := by rw [← hdrev]; exact hdall'
  have hrev : (r ++ w ++ d).reverse = (dc :: dt) ++ (wc :: wt) ++ (rc :: rt) := by
    rw [List.append_assoc, List.reverse_append, List.reverse_append,
        hdrev, hwrev, hrrev2, List.append_assoc]
  have i1 : ((wc :: wt) ++ (rc :: rt)).takeWhile isDigitChar = [] := by
    rw [List.cons_append, takeWhile_eq_nil_of_head hwcd]
  have i2 : ((wc :: wt) ++ (rc :: rt)).dropWhile isDigitChar = wc :: (wt ++ rc :: rt) := by
    rw [List.cons_append, dropWhile_eq_self_of_head hwcd]
  have e1 : ((dc :: dt) ++ (wc :: wt) ++ (rc :: rt)).takeWhile isDigitChar = dc :: dt := by
    rw [List.append_assoc, takeWhile_append_of_all hdall2, i1, List.append_nil]
  have e2 : ((dc :: dt) ++ (wc :: wt) ++ (rc :: rt)).dropWhile isDigitChar
      = wc :: (wt ++ rc :: rt) := by
    rw [List.append_assoc, dropWhile_append_of_all hdall2, i2]
  have e3 : (wc :: (wt ++ rc :: rt)).takeWhile isWsChar = wc :: wt := by
    rw [← List.cons_append, takeWhile_append_of_all hwall2,
        takeWhile_eq_nil_of_head hrcw, List.append_nil]
  have e4 : (wc :: (wt ++ rc :: rt)).dropWhile isWsChar = rc :: rt := by
    rw [← List.cons_append, dropWhile_append_of_all hwall2,
        dropWhile_eq_self_of_head hrcw]
  have hrr : (rc :: rt).reverse = r := by rw [← hrrev2]; simp
  have hdd : (dc :: dt).reverse = d := by rw [← hdrev]; simp
  simp only [matchQtyLast, hrev, e1, e2, e3, e4, List.isEmpty_cons, hrr, hdd, hcr]
  simp

/-- C6: for every non-empty line, the Lexical Normalizer returns the leading
integer as quantity with the trimmed remainder as term when the trimmed line
matches the leading-quantity regex (it decomposes as a non-empty digit run, a
non-empty whitespace run and a terminator-free remainder starting with
non-whitespace); else the trailing integer as quantity with the trimmed
prefix as term when it matches the trailing-quantity regex; else quantity 1
with the whole trimmed line as term; and a line matching both patterns, such
as "2 eggs 3", takes the leading-quantity pattern (quantity 2, term
"eggs 3"). -/
theorem c6_normalizer :
    (∀ (line : String) (d w r : List Char),
      jsTrimList line.data = d ++ w ++ r →
      d ≠ [] → (∀ c ∈ d, isDigitChar c = true) →
      w ≠ [] → (∀ c ∈ w, isWsChar c = true) →
      r ≠ [] → (∀ c l, r = c :: l → isWsChar c = false) →
      r.contains '\r' = false →
      parseLineForProduct line = (natOfDigits d, ⟨jsTrimList r⟩)) ∧
    (∀ (line : String) (r w d : List Char) (rl : Char),
      jsTrimList line.data = r ++ w ++ d →
      matchQtyFirst (jsTrimList line.data) = none →
      d ≠ [] → (∀ c ∈ d, isDigitChar c = true) →
      w ≠ [] → (∀ c ∈ w, isWsChar c = true) →
      r.getLast? = some rl → isWsChar rl = false →
      r.contains '\r' = false →
      parseLineForProduct line = (natOfDigits d, ⟨jsTrimList r⟩)) ∧
    (∀ line : String,
      matchQtyFirst (jsTrimList line.data) = none →
      matchQtyLast (jsTrimList line.data) = none →
      parseLineForProduct line = (1, ⟨jsTrimList line.data⟩)) ∧
    parseLineForProduct "2 eggs 3" = (2, "eggs 3") := by
  refine ⟨?_, ?_, ?_, by decide⟩
  · intro line d w r ht hd hdall hw hwall hr hrhead hcr
    have hm := matchQtyFirst_decomp hd hdall hw hwall hr hrhead hcr
    simp only [parseLineForProduct, ht, hm]
  · intro line r w d rl ht hm1 hd hdall hw hwall hrl hrlw hcr
    have hm := matchQtyLast_decomp hd hdall hw hwall hrl hrlw hcr
    rw [ht] at hm1
    simp only [parseLineForProduct, ht, hm1, hm]
  · intro line hm1 hm2
    simp only [parseLineForProduct, hm1, hm2]

/-- Witness for C6: concrete instances of the three branches via the theorem
itself. -/
theorem c6_normalizer_witness :
    parseLineForProduct "12  foo" = (12, "foo") ∧
    parseLineForProduct "foo 7" = (7, "foo") ∧
    parseLineForProduct "pain" = (1, "pain") := by
  refine ⟨?_, ?_, ?_⟩
  · have h := c6_normalizer.1 "12  foo" ['1', '2'] [' ', ' '] ['f', 'o', 'o']
      (by decide) (by decide) (by decide) (by decide) (by decide) (by decide)
      (by intro c l hcl; cases hcl; decide) (by decide)
    simpa using h
  · have h := c6_normalizer.2.1 "foo 7" ['f', 'o', 'o'] [' '] ['7'] 'o'
      (by decide) (by decide) (by decide) (by decide) (by decide) (by decide)
      (by decide) (by decide) (by decide)
    simpa using h
  · have h := c6_normalizer.2.2.1 "pain" (by decide) (by decide)
    simpa using h

/-- C5: the Catalog Resolver lowercases and trims the term, generates the
variants in spec order (the term; minus trailing "s" when it ends in "s"
with length > 2, additionally minus trailing "es" when it ends in "es" with
length > 3; otherwise plus "s"), deduplicates, and tries per variant an
exact case-insensitive name match then an alias match, returning the first
hit (`Product.lookup` refines `specResolve`); in particular "tomate" and
"tomates" both resolve against a product named "Tomates". -/
theorem c5_resolver :
    (∀ (ps : List Product) (term : String),
      Product.lookup ps term = specResolve ps term) ∧
    (∀ (ps : List Product) (p : Product),
      ps = [p] → p.name = "Tomates" → p.aliases = [] →
      Product.lookup ps "tomate" = some p ∧ Product.lookup ps "tomates" = some p) := by
  constructor
  · intro ps term
    unfold Product.lookup specResolve
    rw [getPluralVariants_eq_specVariants, tryVariants_eq_firstHit]
  · intro ps p hps hname halias
    subst hps
    obtain ⟨pid, pname, pcat, pal⟩ := p
    simp only at hname halias
    subst hname
    subst halias
    exact ⟨rfl, rfl⟩

/-- Witness for C5: the tomato instance on a concrete one-product catalog,
via the theorem itself. -/
theorem c5_resolver_witness :
    Product.lookup [{ id := 1, name := "Tomates", categoryId := none, aliases := [] }]
        "tomate"
      = some { id := 1, name := "Tomates", categoryId := none, aliases := [] } :=
  (c5_resolver.2 [{ id := 1, name := "Tomates", categoryId := none, aliases := [] }]
    { id := 1, name := "Tomates", categoryId := none, aliases := [] } rfl rfl rfl).1

/-- C8 counterexample: with the external capability unconfigured, a parse
call makes no external call and is logged with the distinct `NOT_INITIALIZED`
classification — but it DOES throw: the call evaluates to a propagated
error, refuting the claim's "does not throw/propagate". -/
theorem c8_counterexample :
    (parseGroceryItems false .unparsable).1.externalCalled = false ∧
    (parseGroceryItems false .unparsable).1.logged
      = [{ success := false, errorType := some .notInitializedErr }] ∧
    (parseGroceryItems false .unparsable).2
      = .error .notInitializedErr :=
  ⟨rfl, rfl, rfl⟩

/-- C8 (amended): when the external parsing capability is unconfigured, a
parse call makes no external call, is logged with the distinct
`NOT_INITIALIZED` error classification, and throws immediately — the error
propagates to the parse-and-add flow so it can report a clear failure
rather than hanging. -/
theorem c8_uninitialized (resp : AiResponse) :
    parseGroceryItems false resp =
      ({ externalCalled := false,
         logged := [{ success := false, errorType := some .notInitializedErr }] },
       .error .notInitializedErr) := rfl

/-- C9 counterexample: an adapter item with quantity -3 passes validation
carrying quantity -3, refuting "no item emerging from adapter validation
carries a zero or negative quantity". -/
theorem c9_counterexample :
    (parseGroceryItems true
        (.arr [{ article := some "Lait", quantity := some (.num (-3)),
                 category := some "Autre" }])).2
      = .ok [{ article := "Lait", quantity := -3, category := "Autre" }] ∧
    (-3 : Int) < 1 :=
  ⟨rfl, by decide⟩

/-- C9 (amended): the quantity of a validated adapter item is coerced by
`parseInt(quantity) || 1`: an absent/unparsable value and a parsed 0 default
to 1, and any other parsed integer — including a negative one — passes
through unchanged; consequently no validated item carries quantity 0, but
negative quantities are possible. -/
theorem c9_quantity_coercion :
    (∀ (aiInit : Bool) (resp : AiResponse) (out : List AiItem),
      (parseGroceryItems aiInit resp).2 = .ok out → ∀ it ∈ out, it.quantity ≠ 0) ∧
    (∀ q : Option JVal, jsParseInt q = none ∨ jsParseInt q = some 0 →
      coerceQty q = 1) ∧
    (∀ (q : Option JVal) (n : Int), jsParseInt q = some n → n ≠ 0 →
      coerceQty q = n) := by
  refine ⟨?_, ?_, ?_⟩
  · intro aiInit resp out h it hit
    cases aiInit with
    | false => cases h
    | true =>
      cases resp with
      | unparsable => cases h
      | nonArray => cases h
      | arr items =>
        simp only [parseGroceryItems] at h
        cases hv : validateAiItems items with
        | error e => rw [hv] at h; cases h
        | ok v =>
          rw [hv] at h
          cases h
          exact validateAiItems_quantity_ne_zero items out hv it hit
  · intro q hq
    rcases hq with hq | hq <;> simp [coerceQty, hq]
  · intro q n hq hn
    simp [coerceQty, hq, hn]

/-- Witness for C9 (amended): concrete coercions through the theorem. -/
theorem c9_quantity_coercion_witness :
    coerceQty (some (.str "abc")) = 1 ∧ coerceQty (some (.num (-3))) = -3 :=
  ⟨c9_quantity_coercion.2.1 (some (.str "abc")) (Or.inl rfl),
   c9_quantity_coercion.2.2 (some (.num (-3))) (-3) rfl (by decide)⟩

/-- C4 counterexample: two unresolved lines but a one-item adapter response;
the call nevertheless succeeds and a Product is created from the
partially-accepted response, refuting "the whole unresolved sub-batch fails
and no Products or Categories are created". -/
theorem c4_counterexample :
    (parseLines emptyDb.products (splitLines "aaa\nbbb")).2.length = 2 ∧
    oneItemRespList.length = 1 ∧
    (parseAndAddItems emptyDb true oneItemResp "b1" "aaa\nbbb").2
      = .ok { batchId := "b1",
              stats := { total := 1, fromCache := 0, fromAI := 1 } } ∧
    (parseAndAddItems emptyDb true oneItemResp "b1" "aaa\nbbb").1.products.length = 1 ∧
    emptyDb.products.length = 0 ∧
    (parseAndAddItems emptyDb true oneItemResp "b1" "aaa\nbbb").1.categories.length = 1 ∧
    emptyDb.categories.length = 0 :=
  ⟨rfl, rfl, rfl, rfl, rfl, rfl, rfl⟩

/-- C4 (amended): a response whose JSON is unparsable — or that is not an
array, has items missing required fields, or meets an unconfigured adapter —
fails the whole unresolved sub-batch and leaves the entire store (Products
and Categories included) unchanged.  The response array length itself is not
validated: a mismatch does not as such fail the batch (see the
counterexample, where a short array is accepted and learned from). -/
theorem c4_adapter_failure (db : Db) (aiInit : Bool) (resp : AiResponse)
    (batchId text : String)
    (hnf : (parseLines db.products (splitLines text)).2.length > 0)
    (he : ∃ e, (parseGroceryItems aiInit resp).2 = .error e) :
    ∃ e, parseAndAddItems db aiInit resp batchId text
      = (db, .error (.aiFailure e)) := by
  obtain ⟨e, he⟩ := he
  refine ⟨e, ?_⟩
  simp only [parseAndAddItems, hnf, if_pos, he]

/-- Witness for C4 (amended): an unparsable response on a concrete store. -/
theorem c4_adapter_failure_witness :
    ∃ e, parseAndAddItems emptyDb true .unparsable "b1" "aaa"
      = (emptyDb, .error (.aiFailure e)) :=
  c4_adapter_failure emptyDb true .unparsable "b1" "aaa" (by decide)
    ⟨.jsonParseError, rfl⟩

/-! ## Helper lemmas for the reconciler and lifecycle claims -/

theorem tryVariants_mem {ps : List Product} {p : Product} :
    ∀ vs : List String, tryVariants ps vs = some p → p ∈ ps := by
  intro vs
  induction vs with
  | nil => intro h; cases h
  | cons v rest ih =>
    intro h
    simp only [tryVariants] at h
    cases hn : Product.findByName ps v with
    | some q =>
      rw [hn] at h; cases h
      exact List.mem_of_find?_eq_some hn
    | none =>
      rw [hn] at h
      cases ha : Product.findByAlias ps v with
      | some q =>
        rw [ha] at h; cases h
        exact List.mem_of_find?_eq_some ha
      | none => rw [ha] at h; exact ih h

theorem lookup_mem {ps : List Product} {term : String} {p : Product}
    (h : Product.lookup ps term = some p) : p ∈ ps :=
  tryVariants_mem _ h

theorem findByProduct_eq_none {db : Db} {pid : Nat}
    (h : openEntriesFor db pid = []) : GroceryItem.findByProduct db pid = none := by
  unfold GroceryItem.findByProduct
  rw [List.filter_eq_nil_iff.mpr ?_]
  · rfl
  · intro a ha hpa
    rw [openEntriesFor, List.filter_eq_nil_iff] at h
    refine h a ha ?_
    simp only [Bool.and_eq_true] at hpa ⊢
    exact hpa.1

theorem mem_insertSorted {le : ListEntry → ListEntry → Bool} {a b : ListEntry} :
    ∀ {l : List ListEntry}, b ∈ insertSorted le a l ↔ b = a ∨ b ∈ l := by
  intro l
  induction l with
  | nil => simp [insertSorted]
  | cons c cs ih =>
    cases hle : le a c with
    | true => simp [insertSorted, hle]
    | false =>
      simp only [insertSorted, hle, Bool.false_eq_true, if_false, List.mem_cons, ih]
      tauto

theorem mem_sortEntries {le : ListEntry → ListEntry → Bool} {b : ListEntry} :
    ∀ {l : List ListEntry}, b ∈ sortEntries le l ↔ b ∈ l := by
  intro l
  induction l with
  | nil => simp [sortEntries]
  | cons c cs ih =>
    simp only [sortEntries, mem_insertSorted, List.mem_cons, ih]

theorem mem_findByStatus {db : Db} {st : EStatus} {e : ListEntry} :
    e ∈ GroceryItem.findByStatus db st ↔
      e ∈ db.items ∧ e.status = st ∧
        db.products.any (fun p => p.id = e.productId) = true := by
  unfold GroceryItem.findByStatus
  rw [mem_sortEntries, List.mem_filter]
  simp [Bool.and_eq_true, and_assoc]

theorem archiveLoop_none (sid : String) :
    ∀ (rows : List ArchRow) (i : Nat) (db : Db),
      archiveLoop sid none i db rows =
        .ok ({ categories := db.categories, products := db.products,
               items := db.items.filter (fun x =>
                 rows.all (fun row => x.id ≠ row.entry.id)),
               history := db.history ++ archRecords sid db.nextId rows,
               nextId := db.nextId + rows.length }, rows.length) := by
  intro rows
  induction rows with
  | nil =>
    intro i db
    simp only [archiveLoop, List.all_nil, archRecords, List.append_nil,
      List.length_nil, Nat.add_zero]
    rw [List.filter_eq_self.mpr (by intro a _; rfl)]
  | cons row rest ih =>
    intro i db
    simp only [archiveLoop]
    rw [if_neg (by simp)]
    rw [ih]
    have hitems :
        (db.items.filter (fun x => x.id ≠ row.entry.id)).filter
            (fun x => rest.all (fun r => x.id ≠ r.entry.id))
          = db.items.filter (fun x =>
              (row :: rest).all (fun r => x.id ≠ r.entry.id)) := by
      rw [List.filter_filter]
      refine List.filter_congr ?_
      intro x _
      simp only [List.all_cons]
      exact Bool.and_comm _ _
    have hhist :
        (db.history ++
            [{ id := db.nextId, productId := some row.entry.productId,
               productName := row.productName, categoryName := row.categoryName,
               quantity := row.entry.quantity, status := row.entry.status,
               sessionId := sid }]) ++ archRecords sid (db.nextId + 1) rest
          = db.history ++ archRecords sid db.nextId (row :: rest) := by
      simp [archRecords, List.append_assoc]
    have hnext : db.nextId + 1 + rest.length = db.nextId + (row :: rest).length := by
      simp only [List.length_cons]; omega
    rw [hitems, hhist, hnext]
    rfl

theorem archiveLoop_fail (sid : String) :
    ∀ (rows : List ArchRow) (i k : Nat) (db : Db), k < rows.length →
      archiveLoop sid (some (i + k)) i db rows = .error .dbFailure := by
  intro rows
  induction rows with
  | nil => intro i k db hk; simp at hk
  | cons row rest ih =>
    intro i k db hk
    simp only [archiveLoop]
    by_cases hk0 : k = 0
    · subst hk0; simp
    · rw [if_neg (by simp; omega)]
      obtain ⟨k2, rfl⟩ := Nat.exists_eq_succ_of_ne_zero hk0
      have harith : i + (k2 + 1) = (i + 1) + k2 := by omega
      rw [harith, ih (i + 1) k2 _ (by simpa using hk)]

theorem bool_eq_of_iff {a b : Bool} (h : a = true ↔ b = true) : a = b := by
  cases a <;> cases b <;> simp_all

/-- C3: the archive operation runs inside a single transaction; a write
failing partway (before the k-th of the rows to archive) rolls back every
history insert and every entry delete of the call, leaving the open list and
the history exactly as before. -/
theorem c3_transaction_rollback (db : Db) (sid : String) (k : Nat)
    (hk : k < (GroceryItem.findByStatus db .found).length +
        (GroceryItem.findByStatus db .not_found).length) :
    completeShoppingSession db sid (some k) = (db, .error .dbFailure) := by
  simp only [completeShoppingSession, withTransaction]
  have hlen : k <
      ((GroceryItem.findByStatus db .found ++
        GroceryItem.findByStatus db .not_found).map (fun e =>
          ({ entry := e, productName := joinedName db e,
             categoryName := joinedCatName db e } : ArchRow))).length := by
    simpa using hk
  have h0 := archiveLoop_fail sid _ 0 k db hlen
  rw [Nat.zero_add] at h0
  rw [h0]

/-- Witness for C3: a failure injected at the second row of a concrete
archive leaves the store untouched. -/
theorem c3_transaction_rollback_witness :
    completeShoppingSession archDb "sess1" (some 1) = (archDb, .error .dbFailure) :=
  c3_transaction_rollback archDb "sess1" 1 (by decide)

/-- C2: with unique entry ids and every entry's product present (the
database's foreign-key invariant), `completeShoppingSession` archives
exactly the entries in status `found` or `not_found`: each becomes a history
record copying product name, category name, quantity and status, all tagged
with the one fresh session id; those entries are deleted while `pending` and
`selected` entries survive unchanged; and the result reports
`(sessionId, archivedCount, foundCount, notFoundCount)` with
`archivedCount = foundCount + notFoundCount`. -/
theorem c2_complete_shopping (db : Db) (sid : String)
    (hids : (db.items.map ListEntry.id).Nodup)
    (hjoin : ∀ e ∈ db.items, db.products.any (fun p => p.id = e.productId) = true) :
    completeShoppingSession db sid none =
      ({ categories := db.categories, products := db.products,
         items := db.items.filter (fun e =>
           e.status ≠ EStatus.found && e.status ≠ EStatus.not_found),
         history := db.history ++ archRecords sid db.nextId
           ((GroceryItem.findByStatus db .found ++
             GroceryItem.findByStatus db .not_found).map (fun e =>
               ({ entry := e, productName := joinedName db e,
                  categoryName := joinedCatName db e } : ArchRow))),
         nextId := db.nextId +
           ((GroceryItem.findByStatus db .found).length +
            (GroceryItem.findByStatus db .not_found).length) },
       .ok { sessionId := sid,
             archivedCount := (GroceryItem.findByStatus db .found).length +
               (GroceryItem.findByStatus db .not_found).length,
             foundCount := (GroceryItem.findByStatus db .found).length,
             notFoundCount := (GroceryItem.findByStatus db .not_found).length }) := by
  simp only [completeShoppingSession, withTransaction]
  rw [archiveLoop_none]
  have hrowsLen :
      ((GroceryItem.findByStatus db .found ++
        GroceryItem.findByStatus db .not_found).map (fun e =>
          ({ entry := e, productName := joinedName db e,
             categoryName := joinedCatName db e } : ArchRow))).length
        = (GroceryItem.findByStatus db .found).length +
          (GroceryItem.findByStatus db .not_found).length := by
    simp
  have hfilter :
      db.items.filter (fun x =>
        ((GroceryItem.findByStatus db .found ++
          GroceryItem.findByStatus db .not_found).map (fun e =>
            ({ entry := e, productName := joinedName db e,
               categoryName := joinedCatName db e } : ArchRow))).all
          (fun row => x.id ≠ row.entry.id))
        = db.items.filter (fun e =>
            e.status ≠ EStatus.found && e.status ≠ EStatus.not_found) := by
    refine List.filter_congr ?_
    intro x hx
    refine bool_eq_of_iff ?_
    rw [List.all_eq_true]
    constructor
    · intro hall
      simp only [Bool.and_eq_true, decide_eq_true_eq]
      constructor
      · intro hst
        have hxin : x ∈ GroceryItem.findByStatus db .found :=
          mem_findByStatus.mpr ⟨hx, hst, hjoin x hx⟩
        have := hall _ (List.mem_map_of_mem _
          (List.mem_append_left _ hxin))
        simp at this
      · intro hst
        have hxin : x ∈ GroceryItem.findByStatus db .not_found :=
          mem_findByStatus.mpr ⟨hx, hst, hjoin x hx⟩
        have := hall _ (List.mem_map_of_mem _
          (List.mem_append_right _ hxin))
        simp at this
    · intro hst row hrow
      simp only [Bool.and_eq_true, decide_eq_true_eq] at hst
      obtain ⟨a, ha, rfl⟩ := List.mem_map.mp hrow
      simp only [decide_eq_true_eq]
      intro hxa
      have hain : a ∈ db.items ∧ (a.status = .found ∨ a.status = .not_found) := by
        rcases List.mem_append.mp ha with hfa | hna
        · have := mem_findByStatus.mp hfa
          exact ⟨this.1, Or.inl this.2.1⟩
        · have := mem_findByStatus.mp hna
          exact ⟨this.1, Or.inr this.2.1⟩
      have hax : a = x :=
        List.inj_on_of_nodup_map hids hain.1 hx (by rw [hxa])
      rcases hain.2 with hs | hs
      · exact hst.1 (by rw [← hax, hs])
      · exact hst.2 (by rw [← hax, hs])
  rw [hrowsLen, hfilter]

/-- Witness for C2: a store with two `found` entries, one `not_found` entry
and one `pending` entry yields three history records sharing the session id
and the counts 3/2/1, with the `pending` entry untouched. -/
theorem c2_complete_shopping_witness :
    completeShoppingSession archDb "sess1" none =
      ({ categories := [fixtureCat],
         products := archDb.products,
         items := [{ id := 103, productId := 4, quantity := 1,
                     status := .pending, batchId := none, note := none }],
         history := [{ id := 200, productId := some 1, productName := "A",
                       categoryName := some "Cat", quantity := 2,
                       status := .found, sessionId := "sess1" },
                     { id := 201, productId := some 2, productName := "B",
                       categoryName := some "Cat", quantity := 1,
                       status := .found, sessionId := "sess1" },
                     { id := 202, productId := some 3, productName := "C",
                       categoryName := none, quantity := 4,
                       status := .not_found, sessionId := "sess1" }],
         nextId := 203 },
       .ok { sessionId := "sess1", archivedCount := 3, foundCount := 2,
             notFoundCount := 1 }) := by
  rw [c2_complete_shopping archDb "sess1" (by decide) (by decide)]
  rfl

/-- C7: restoring a history record — when its product id is still set and
the product has no open entry, a new `pending` entry with the archived
quantity is appended; when an open entry exists, its quantity grows by the
archived quantity instead of duplicating; when the product id is gone,
resolution by the stored product name is attempted, a new entry being
created on success, and on failure the restore is rejected with a
user-facing error while the history record stays in history. -/
theorem c7_restore (db : Db) (hid : Nat) (h : HistoryRecord)
    (hfind : GroceryHistory.findById db hid = some h) :
    ((∀ pid, h.productId = some pid → pid ≠ 0 →
        GroceryItem.findByProduct db pid = none →
        restoreHistoryItem db hid =
          ({ db with
             items := db.items ++
               [{ id := db.nextId, productId := pid, quantity := h.quantity,
                  status := .pending, batchId := none, note := none }],
             nextId := db.nextId + 1 },
           .ok { id := db.nextId, productId := pid, quantity := h.quantity,
                 status := .pending, batchId := none, note := none })) ∧
     (∀ pid e, h.productId = some pid → pid ≠ 0 →
        GroceryItem.findByProduct db pid = some e →
        restoreHistoryItem db hid =
          (saveUpdatedEntry db { e with quantity := e.quantity + h.quantity },
           .ok { e with quantity := e.quantity + h.quantity })) ∧
     (h.productId = none →
        Product.findByName db.products h.productName = none →
        restoreHistoryItem db hid = (db, .error .productGone) ∧
          h ∈ db.history) ∧
     (∀ p, h.productId = none →
        Product.findByName db.products h.productName = some p →
        GroceryItem.findByProduct db p.id = none →
        restoreHistoryItem db hid =
          ({ db with
             items := db.items ++
               [{ id := db.nextId, productId := p.id, quantity := h.quantity,
                  status := .pending, batchId := none, note := none }],
             nextId := db.nextId + 1 },
           .ok { id := db.nextId, productId := p.id, quantity := h.quantity,
                 status := .pending, batchId := none, note := none }))) := by
  have hmem : h ∈ db.history := List.mem_of_find?_eq_some hfind
  refine ⟨?_, ?_, ?_, ?_⟩
  · intro pid hpid hpid0 hfp
    simp only [restoreHistoryItem, hfind, hpid]
    rw [if_neg hpid0]
    simp only [hfp]
  · intro pid e hpid hpid0 hfp
    simp only [restoreHistoryItem, hfind, hpid]
    rw [if_neg hpid0]
    simp only [hfp]
  · intro hpid hname
    simp only [restoreHistoryItem, hfind, hpid, hname]
    exact ⟨rfl, hmem⟩
  · intro p hpid hname hfp
    simp only [restoreHistoryItem, hfind, hpid, hname]
    have hmap : Option.map Product.id (some p) = some p.id := rfl
    rw [hmap]
    simp only [hfp]

/-- Witness for C7: restoring a concrete record whose product exists and has
no open entry creates the `pending` entry with the archived quantity. -/
theorem c7_restore_witness :
    restoreHistoryItem histDb 50 =
      ({ histDb with
         items := histDb.items ++
           [{ id := 300, productId := 1, quantity := 3, status := .pending,
              batchId := none, note := none }],
         nextId := 301 },
       .ok { id := 300, productId := 1, quantity := 3, status := .pending,
             batchId := none, note := none }) := by
  have hc := (c7_restore histDb 50
    { id := 50, productId := some 1, productName := "A",
      categoryName := some "Cat", quantity := 3, status := .found,
      sessionId := "s" } (by decide)).1 1 rfl (by decide) (by decide)
  exact hc

/-- A `parseAndAddItems` call on a single line that the catalog resolves is
one merge-or-insert step: no external call is made and the stats report one
cached item. -/
theorem parseAndAdd_single_resolved (db : Db) (aiInit : Bool) (resp : AiResponse)
    (b l : String) (q : Nat) (term : String) (p : Product)
    (hsplit : splitLines l = [l])
    (hparse : parseLineForProduct l = (q, term))
    (hlook : Product.lookup db.products term = some p) :
    parseAndAddItems db aiInit resp b l =
      (mergeOrInsertItem b db
        { product := p, quantity := (q : Int), originalInput := jsTrim l },
       .ok { batchId := b,
             stats := { total := 1, fromCache := 1, fromAI := 0 } }) := by
  have htrim : ¬ (jsTrim l = "") := by
    have hm : l ∈ splitLines l := by
      rw [hsplit]; exact List.mem_singleton_self l
    have := List.of_mem_filter hm
    simpa using this
  have hpl : parseLines db.products [l] =
      ([{ product := p, quantity := (q : Int), originalInput := jsTrim l }], []) := by
    simp only [parseLines, hparse, hlook, if_neg htrim]
  simp only [parseAndAddItems, hsplit, hpl, List.length_nil, gt_iff_lt,
    Nat.lt_irrefl, if_false, List.map_cons, List.map_nil, List.nil_append,
    List.append_nil, addAllItems, List.foldl_cons, List.foldl_nil,
    List.length_cons]

theorem map_update_append {items : List ListEntry} {e1 e2 : ListEntry} {n : Nat}
    (h1 : e1.id = n) (hfr : ∀ x ∈ items, x.id ≠ n) :
    (items ++ [e1]).map (fun x => if x.id = n then e2 else x)
      = items ++ [e2] := by
  rw [List.map_append]
  congr 1
  · refine (List.map_congr_left ?_).trans (List.map_id _)
    intro x hx
    exact if_neg (hfr x hx)
  · simp [h1]

theorem filter_open_nil {items : List ListEntry} {pid : Nat}
    (h : items.filter (fun e => e.productId = pid && e.status ≠ EStatus.found) = [])
    (ps : List Product) :
    items.filter (fun e => e.productId = pid && e.status ≠ EStatus.found &&
      ps.any (fun p => p.id = e.productId)) = [] := by
  rw [List.filter_eq_nil_iff] at h ⊢
  intro a ha hpa
  refine h a ha ?_
  simp only [Bool.and_eq_true] at hpa ⊢
  exact hpa.1

/-- C1: starting from a store with no open entry for a product, two
`parseAndAddItems` calls that resolve to it (quantities 2 then 3) leave
exactly one open ListEntry for that product — quantity 5, stamped with the
second call's batch id — rather than two entries: the first call creates the
`pending` entry, the second finds it open and adds its quantity. -/
theorem c1_merge_two_adds (db : Db) (aiInit : Bool) (resp1 resp2 : AiResponse)
    (b1 b2 l1 l2 term : String) (p : Product)
    (hsplit1 : splitLines l1 = [l1]) (hsplit2 : splitLines l2 = [l2])
    (hparse1 : parseLineForProduct l1 = (2, term))
    (hparse2 : parseLineForProduct l2 = (3, term))
    (hlook : Product.lookup db.products term = some p)
    (hopen : openEntriesFor db p.id = [])
    (hfresh : ∀ e ∈ db.items, e.id ≠ db.nextId) :
    openEntriesFor
        (parseAndAddItems
          (parseAndAddItems db aiInit resp1 b1 l1).1 aiInit resp2 b2 l2).1 p.id
      = [{ id := db.nextId, productId := p.id, quantity := 5,
           status := .pending, batchId := some b2, note := none }] := by
  have hpmem : p ∈ db.products := lookup_mem hlook
  rw [parseAndAdd_single_resolved db aiInit resp1 b1 l1 2 term p hsplit1 hparse1 hlook]
  simp only [mergeOrInsertItem, findByProduct_eq_none hopen]
  set e1 : ListEntry :=
    { id := db.nextId, productId := p.id, quantity := ((2 : Nat) : Int),
      status := .pending, batchId := some b1, note := none } with he1
  set db1 : Db :=
    { db with items := db.items ++ [e1], nextId := db.nextId + 1 } with hdb1
  have hlook2 : Product.lookup db1.products term = some p := hlook
  rw [parseAndAdd_single_resolved db1 aiInit resp2 b2 l2 3 term p hsplit2 hparse2 hlook2]
  have hany : db.products.any (fun pr => pr.id = p.id) = true :=
    List.any_eq_true.mpr ⟨p, hpmem, by simp⟩
  have hfp2 : GroceryItem.findByProduct db1 p.id = some e1 := by
    unfold GroceryItem.findByProduct
    show ((db.items ++ [e1]).filter _).head? = some e1
    rw [List.filter_append, filter_open_nil hopen, List.nil_append]
    have hpe1 : (e1.productId = p.id && e1.status ≠ EStatus.found &&
        db1.products.any (fun pr => pr.id = e1.productId)) = true := by
      simp only [he1, hdb1]
      simp [hany]
    rw [List.filter_cons]
    rw [if_pos hpe1]
    rfl
  simp only [mergeOrInsertItem, hfp2, saveUpdatedEntry]
  rw [@map_update_append db.items e1 _ db.nextId rfl (fun x hx => hfresh x hx)]
  have hopen2 : db.items.filter
      (fun e => e.productId = p.id && e.status ≠ EStatus.found) = [] := hopen
  simp only [openEntriesFor]
  rw [List.filter_append, hopen2, List.nil_append]
  simp [he1]

/-- Witness for C1: two concrete adds of "tomates" merge into one open
entry of quantity 5. -/
theorem c1_merge_two_adds_witness :
    openEntriesFor
        (parseAndAddItems
          (parseAndAddItems tomatoDb true .unparsable "b1" "2 tomates").1
          true .unparsable "b2" "3 tomates").1 1
      = [{ id := 7, productId := 1, quantity := 5, status := .pending,
           batchId := some "b2", note := none }] := by
  have h := c1_merge_two_adds tomatoDb true .unparsable .unparsable
    "b1" "b2" "2 tomates" "3 tomates" "tomates" tomatoProduct
    (by decide) (by decide) (by decide) (by decide) (by decide) (by decide)
    (by intro e he; simp [tomatoDb] at he)
  simpa using h

/-- C10: when a product's only list entry has status `found`, re-adding the
product does not merge: the lookup of an open entry skips `found` rows, so a
second, separate `pending` entry is created and the product simultaneously
has a `found` and a `pending` entry — the one-entry-per-product guarantee
only covers non-`found` statuses. -/
theorem c10_found_not_merged (db : Db) (aiInit : Bool) (resp : AiResponse)
    (b l term : String) (q : Nat) (p : Product) (e : ListEntry)
    (hsplit : splitLines l = [l])
    (hparse : parseLineForProduct l = (q, term))
    (hlook : Product.lookup db.products term = some p)
    (hall : db.items.filter (fun x => x.productId = p.id) = [e])
    (hst : e.status = .found) :
    (parseAndAddItems db aiInit resp b l).1.items.filter
        (fun x => x.productId = p.id)
      = [e, { id := db.nextId, productId := p.id, quantity := (q : Int),
              status := .pending, batchId := some b, note := none }] := by
  rw [parseAndAdd_single_resolved db aiInit resp b l q term p hsplit hparse hlook]
  have hopen0 : openEntriesFor db p.id = [] := by
    rw [openEntriesFor, List.filter_eq_nil_iff]
    intro a ha hpa
    simp only [Bool.and_eq_true, decide_eq_true_eq] at hpa
    have hamem : a ∈ db.items.filter (fun x => x.productId = p.id) :=
      List.mem_filter.mpr ⟨ha, by simp [hpa.1]⟩
    rw [hall] at hamem
    have hae : a = e := by simpa using hamem
    exact hpa.2 (by rw [hae, hst])
  simp only [mergeOrInsertItem, findByProduct_eq_none hopen0]
  rw [List.filter_append, hall]
  simp

/-- Witness for C10: re-adding "tomates" while its sole entry is `found`
yields both the `found` entry and a fresh `pending` entry. -/
theorem c10_found_not_merged_witness :
    (parseAndAddItems tomatoFoundDb true .unparsable "b9" "3 tomates").1.items.filter
        (fun x => x.productId = 1)
      = [{ id := 100, productId := 1, quantity := 2, status := .found,
           batchId := none, note := none },
         { id := 7, productId := 1, quantity := 3, status := .pending,
           batchId := some "b9", note := none }] := by
  have h := c10_found_not_merged tomatoFoundDb true .unparsable "b9" "3 tomates"
    "tomates" 3 tomatoProduct
    { id := 100, productId := 1, quantity := 2, status := .found,
      batchId := none, note := none }
    (by decide) (by decide) (by decide) (by decide) (by decide)
  simpa using h

end Grocery
